import Mathlib

/-!
Verification development for the pyevereader repository (a Windows process
memory scanner that reconstructs Python 2 object graphs from a target
process).  The definitions below are a shallow embedding of the Rust code in
src/src/eve_process/{process.rs, eve_process.rs, pyobject_parser.rs,
py_struct.rs}.  Addresses and sizes are modelled as Nat (u64/usize values
never wrap in the modelled paths), i64 fields are modelled as Int with
explicit two-complement reinterpretation, memory is a list of snapshotted
regions, and fallible Rust functions returning io::Result are modelled with
Except String.
-/

deriving instance DecidableEq for Except

namespace PyEve

/-- Little-endian read of n bytes starting at off; bytes outside the list
read as 0 (this models reads through an out-of-bounds unsafe view, which the
Rust code can perform because view_bytes_as only bounds-checks 8 bytes). -/
def readLE (data : List Nat) (off n : Nat) : Nat :=
  (List.range n).foldr (fun k acc => data.getD (off + k) 0 + 256 * acc) 0

/-- Little-endian u64 read (pointer and u64 fields of the repr(C) structs). -/
def readU64 (data : List Nat) (off : Nat) : Nat :=
  readLE data off 8

/-- Little-endian u32 read (a 30-bit digit lane as declared in CPyLongObject). -/
def readU32 (data : List Nat) (off : Nat) : Nat :=
  readLE data off 4

/-- Reinterpret a u64 bit pattern as an i64 (two-complement). -/
def toI64 (n : Nat) : Int :=
  if n % 2 ^ 64 < 2 ^ 63 then (n % 2 ^ 64 : Int) else (n % 2 ^ 64 : Int) - 2 ^ 64

/-- Wrap an integer into the i64 range (release-mode Rust i64 arithmetic). -/
def wrapI64 (z : Int) : Int :=
  (z + 2 ^ 63) % 2 ^ 64 - 2 ^ 63

/-- Little-endian i64 read (ssize_t fields such as ob_size, ma_mask). -/
def readI64 (data : List Nat) (off : Nat) : Int :=
  toI64 (readU64 data off)

/-- Little-endian 8-byte encoding of a value below 2^64 (test-harness helper
for building concrete snapshots). -/
def le8 (v : Nat) : List Nat :=
  [v % 256, v / 256 % 256, v / 256 ^ 2 % 256, v / 256 ^ 3 % 256,
   v / 256 ^ 4 % 256, v / 256 ^ 5 % 256, v / 256 ^ 6 % 256, v / 256 ^ 7 % 256]

/-- A list of n zero bytes. -/
def zeros (n : Nat) : List Nat :=
  List.replicate n 0

/-- ASCII bytes of a Lean string; models str::as_bytes for the ASCII type
names the engine compares. -/
def strBytes (s : String) : List Nat :=
  s.data.map (fun c => c.toNat)

/-- ASCII decoding of a byte list; models String::from_utf8_lossy on the
ASCII type names that occur in the engine. -/
def decodeAscii (bs : List Nat) : String :=
  String.mk (bs.map Char.ofNat)

/-- The zero-terminated byte string stored at off (used to state what the
full tp_name at an address is). -/
def readCStr (data : List Nat) (off : Nat) : List Nat :=
  (data.drop off).takeWhile (fun b => b ≠ 0)

/-- MemoryRegion from process.rs: a snapshot of target memory starting at
start, of the given size, with the snapshotted bytes in data. -/
structure MemoryRegion where
  start : Nat
  size : Nat
  data : List Nat
deriving DecidableEq

instance : Inhabited MemoryRegion := ⟨⟨0, 0, []⟩⟩

/-- The part of Process (process.rs) that the modelled operations read: the
region list, kept sorted by start by enum_memory_regions. -/
structure Process where
  regions : List MemoryRegion
deriving DecidableEq

/-- Rust slice::binary_search_by_key on the list of region starts, specified
extensionally for the sorted inputs the code maintains: inl i when starts[i]
equals addr, otherwise inr of the insertion index. -/
def binSearchStarts (starts : List Nat) (addr : Nat) : Sum Nat Nat :=
  match starts.findIdx? (fun s => s == addr) with
  | some i => Sum.inl i
  | none => Sum.inr (starts.countP (fun s => decide (s < addr)))

/-- Process::get_region_from_address (process.rs lines 277-316) without the
LRU consultation: binary search on starts, reject insertion index 0 or len,
then accept offsets up to and including the region size.  The LRU layer is
modelled separately in get_region_from_address_cached. -/
def get_region_from_address (regions : List MemoryRegion) (addr : Nat) :
    Except String (Nat × Nat) :=
  match binSearchStarts (regions.map (fun r => r.start)) addr with
  | Sum.inl index => .ok (index, 0)
  | Sum.inr index =>
    if index = 0 ∨ index = regions.length then
      .error "Address not found in any memory region"
    else
      let index := index - 1
      let r := regions.getD index default
      let offset := addr - r.start
      if addr < r.start then
        .error "Unknown error, MemoryRegions may not be correctly sorted."
      else if offset > r.size then
        .error "Address not found in any memory region"
      else
        .ok (index, offset)

/-- One entry of the global LRU map _memory_map_cache: address, region
index, offset.  The list is kept most-recently-used first. -/
abbrev LruCache := List (Nat × Nat × Nat)

/-- Drop the entry for address a from the cache. -/
def lruRemove (c : LruCache) (a : Nat) : LruCache :=
  c.filter (fun e => decide (e.1 ≠ a))

/-- lru::LruCache::get - on a hit the entry is promoted to most recent. -/
def lruGet (c : LruCache) (a : Nat) : Option (Nat × Nat) × LruCache :=
  match c.find? (fun e => e.1 == a) with
  | some e => (some e.2, (a, e.2) :: lruRemove c a)
  | none => (none, c)

/-- lru::LruCache::put with capacity 64 (MEMORY_MAP_CACHE_SIZE = 1 shl 6). -/
def lruPut (c : LruCache) (a : Nat) (v : Nat × Nat) : LruCache :=
  ((a, v) :: lruRemove c a).take 64

/-- Process::get_region_from_address as written, with the global LRU made
explicit: consult the cache first and return a hit unchecked; on a miss run
the search and cache a success.  The cache is a single global shared by
every Process value. -/
def get_region_from_address_cached (cache : LruCache)
    (regions : List MemoryRegion) (addr : Nat) :
    Except String (Nat × Nat) × LruCache :=
  match lruGet cache addr with
  | (some v, c1) => (.ok v, c1)
  | (none, c1) =>
    match get_region_from_address regions addr with
    | .ok v => (.ok v, lruPut c1 addr v)
    | .error e => (.error e, c1)

/-- The byte of target memory at address a, when some snapshotted region
contains a (ground truth for ReadProcessMemory in the model). -/
def memByte (p : Process) (a : Nat) : Option Nat :=
  match p.regions.find? (fun r => decide (r.start ≤ a) && decide (a < r.start + r.size)) with
  | some r => some (r.data.getD (a - r.start) 0)
  | none => none

/-- Process::read_memory: a direct ReadProcessMemory of size bytes at addr,
succeeding when every byte is mapped. -/
def read_memory (p : Process) (addr size : Nat) : Except String (List Nat) :=
  match (List.range size).mapM (fun k => memByte p (addr + k)) with
  | some bs => .ok bs
  | none => .error "ReadProcessMemory failed"

/-- Process::read_cache: locate the region for addr with
get_region_from_address, then MemoryRegion::read_bytes(offset, size), which
demands offset + size within the region. -/
def read_cache (p : Process) (addr size : Nat) : Except String (List Nat) :=
  match get_region_from_address p.regions addr with
  | .error e => .error e
  | .ok io' =>
    let r := p.regions.getD io'.1 default
    if io'.2 + size > r.size then .error "Invalid offset or size"
    else .ok ((r.data.drop io'.2).take size)

/-! ## The region scanner (macro par_map_regions, eve_process.rs lines 71-113)

Within one region the macro iterates offsets 0, 8, 16, ... strictly below
region.size, at each offset calls view_bytes_as with an explicit size of 8
bytes and unwraps the result (a failed bounds check is a Rust panic, modelled
as none), and otherwise applies the filter closure.  The parallel reduce
concatenates the per-region lists in region order. -/

/-- The offsets the loop (0..region.size).step_by(8) produces. -/
def scanOffs (size : Nat) : List Nat :=
  (List.range size).filter (fun o => decide (o % 8 = 0))

/-- One region scan over a given offset list: at each offset first the
8-byte bounds check of view_bytes_as (whose failure is an unwrap panic,
modelled as none), then the filter f. -/
def scanList (size : Nat) (f : Nat → Option Nat) : List Nat → Option (List Nat)
  | [] => some []
  | o :: os =>
    if o + 8 ≤ size then
      match f o, scanList size f os with
      | _, none => none
      | some v, some rest => some (v :: rest)
      | none, some rest => some rest
    else none

/-- Scan of one region. -/
def scanRegion (r : MemoryRegion) (f : Nat → Option Nat) : Option (List Nat) :=
  scanList r.size f (scanOffs r.size)

/-- The same iteration recording the offsets at which the filter closure is
actually invoked (none when the scan panics before finishing the region). -/
def scanTrace (size : Nat) : List Nat → Option (List Nat)
  | [] => some []
  | o :: os =>
    if o + 8 ≤ size then (scanTrace size os).map (fun rest => o :: rest)
    else none

/-- Offsets at which the filter runs during the scan of a region of the
given size, or none when the scan panics. -/
def regionInvokedOffsets (size : Nat) : Option (List Nat) :=
  scanTrace size (scanOffs size)

/-- Scan of every region of a process, in region order. -/
def scanAll (f : MemoryRegion → Nat → Option Nat) :
    List MemoryRegion → Option (List Nat)
  | [] => some []
  | r :: rs =>
    match scanRegion r (f r), scanAll f rs with
    | some l, some ls => some (l ++ ls)
    | _, _ => none

/-- Modelled from the spec (section 4.2): the offsets at which the spec says
the predicate is invoked for a template of tSize bytes - the 8-byte-aligned
offsets in the closed interval from 0 to size - tSize.  Written from the
claim wording, to compare with the implementation above. -/
def claimScanOffsets (size tSize : Nat) : List Nat :=
  (List.range (size + 1 - tSize)).filter (fun o => decide (o % 8 = 0))

/-! ## search_type and search_ui_root (eve_process.rs lines 338-407)

The filter closures read fields of the viewed struct through the 8-byte
checked view; field bytes beyond the snapshot read as 0 in the model (the
Rust code reads them through an out-of-bounds reference).  Struct offsets
follow the repr(C) layouts of py_struct.rs on the Windows target:
CPyTypeObject.ob_base.ob_type at 8, CPyTypeObject.tp_name at 24,
CPyCustomObject.attributes at 16, CPyDictObject.ob_base.ob_type at 8,
size_of CPyTypeObject = 32, size_of CPyDictObject = 248. -/

/-- The filter closure of search_type: keep base_addr when the viewed type
object has ob_type equal to the candidate and the first name-length bytes at
its tp_name pointer equal the searched name. -/
def typeFilter (p : Process) (tpc : Nat) (nameBytes : List Nat)
    (r : MemoryRegion) (o : Nat) : Option Nat :=
  if readU64 r.data (o + 8) = tpc then
    match read_cache p (readU64 r.data (o + 24)) nameBytes.length with
    | .ok bs => if nameBytes = bs then some (r.start + o) else none
    | .error _ => none
  else none

/-- EVEProcess::search_type (eve_process.rs lines 338-369).  The outer
Except is the io::Result of the Rust function (error when the resolved type
context is 0); the inner Option is none when the scan panics on an unwrap. -/
def search_type (p : Process) (py_type : Nat) (name : String)
    (tp_addr : Option Nat) : Except String (Option (List Nat)) :=
  let tpc := tp_addr.getD py_type
  if tpc = 0 then .error "No invalid tp_addr provided."
  else .ok (scanAll (typeFilter p tpc (strBytes name)) p.regions)

/-- The filter closure of search_ui_root: keep base_addr when ob_type
matches and the attributes pointer leads to an object whose own type is
named dict (first four bytes compared). -/
def uiRootFilter (p : Process) (tpc : Nat) (r : MemoryRegion) (o : Nat) :
    Option Nat :=
  if readU64 r.data (o + 8) = tpc then
    match read_cache p (readU64 r.data (o + 16)) 248 with
    | .error _ => none
    | .ok db =>
      match read_cache p (readU64 db 8) 32 with
      | .error _ => none
      | .ok tb =>
        match read_cache p (readU64 tb 24) 4 with
        | .error _ => none
        | .ok nb => if nb = strBytes "dict" then some (r.start + o) else none
  else none

/-- EVEProcess::search_ui_root (eve_process.rs lines 371-407). -/
def search_ui_root (p : Process) (ui_root : Nat) (tp_addr : Option Nat) :
    Except String (Option (List Nat)) :=
  let t := tp_addr.getD ui_root
  if t = 0 then .error "No invalid tp_addr provided."
  else .ok (scanAll (uiRootFilter p t) p.regions)

/-! ## Engine state and node management (eve_process.rs lines 51-235) -/

/-- PyObjectNode (eve_process.rs lines 51-60). -/
structure PyObjectNode where
  base_addr : Nat
  ob_type : Nat
  tp_name : String
  attrs : List (Nat × Nat)
  items : List Nat
  extras : List Nat
  is_parsed : Bool
deriving DecidableEq

/-- The two HashMaps of EVEProcess that new_node and del_node mutate,
modelled as association lists (key lookup, insert-replace and removal are
the only operations the code performs). -/
structure EVEState where
  objects : List (Nat × PyObjectNode)
  regions : List (Nat × MemoryRegion)
deriving DecidableEq

/-- HashMap::get on the association-list model (first match). -/
def alookup {α : Type} (l : List (Nat × α)) (k : Nat) : Option α :=
  match l with
  | [] => none
  | p :: ps => if p.1 = k then some p.2 else alookup ps k

/-- HashMap::remove on the association-list model. -/
def aremove {α : Type} (l : List (Nat × α)) (k : Nat) : List (Nat × α) :=
  match l with
  | [] => []
  | p :: ps => if p.1 = k then aremove ps k else p :: aremove ps k

/-- HashMap::insert on the association-list model (replaces any previous
binding of the key). -/
def ainsert {α : Type} (l : List (Nat × α)) (k : Nat) (v : α) : List (Nat × α) :=
  (k, v) :: aremove l k

/-- EVEProcess::del_node (eve_process.rs lines 223-232): error when the
address has no cached node; otherwise remove the node and the regions keyed
by its extras.  The region keyed by base_addr itself is not removed. -/
def del_node (st : EVEState) (a : Nat) : Except String EVEState :=
  match alookup st.objects a with
  | none => .error "invalid base_addr"
  | some obj =>
    .ok ⟨aremove st.objects a, obj.extras.foldl (fun rs e => aremove rs e) st.regions⟩

/-- The fixed object sizes of the new_node dispatch (eve_process.rs lines
190-205): size_of of the corresponding py_struct.rs repr(C) struct on the
Windows target (ssize_t = 8, c_long = c_int = 4 bytes). -/
def objSize (s : String) : Nat :=
  if s = "str" then 40
  else if s = "bytearray" then 48
  else if s = "bytes" then 40
  else if s = "list" then 40
  else if s = "long" then 32
  else if s = "tuple" then 32
  else if s = "dict" then 248
  else if s = "bool" then 24
  else if s = "float" then 24
  else if s = "int" then 24
  else if s = "NoneType" then 16
  else if s = "unicode" then 48
  else if s = "type" then 32
  else 24

/-- The type names treated as variable-sized in new_node (eve_process.rs
line 182). -/
def varTypes : List String :=
  ["str", "bytearray", "bytes", "list", "long", "tuple"]

/-- The type-name resolution step of new_node for a non-self-typed object
(eve_process.rs lines 145-175): reuse the name of a cached type node, or
snapshot the type object at t, follow tp_name, scan up to 255 bytes for the
zero terminator, reject an empty name, and cache a type node at key t (the
code stores base_addr in both the base_addr and ob_type fields of that
node). -/
def resolveTypeName (p : Process) (st : EVEState) (a t : Nat) :
    Except String (String × EVEState) :=
  match alookup st.objects t with
  | some tn => .ok (tn.tp_name, st)
  | none =>
    match read_cache p t 32 with
    | .error e => .error e
    | .ok tpBytes =>
      match read_cache p (readU64 tpBytes 24) 255 with
      | .error e => .error e
      | .ok nameBytes =>
        let nsz := (nameBytes.findIdx? (fun b => b == 0)).getD 255
        if nsz = 0 then .error "invalid ob_type"
        else
          let nm := decodeAscii (nameBytes.take nsz)
          let tpObj : PyObjectNode := ⟨a, a, nm, [], [], [], true⟩
          .ok (nm, ⟨ainsert st.objects t tpObj,
                    ainsert st.regions t ⟨t, 32, tpBytes⟩⟩)

/-- The result of the silent let _ = del_node(base_addr) in new_node: the
evicted state on success, the unchanged state when the address was not
cached. -/
def delOr (st : EVEState) (a : Nat) : EVEState :=
  match del_node st a with
  | .ok s => s
  | .error _ => st

/-- The tail of new_node for a non-self-typed object (eve_process.rs lines
177-220): silently attempt del_node on the address, compute the variable
tail as the absolute value of ob_size in bytes for the six variable-sized
type names, snapshot objSize + tail bytes at the address and cache a fresh
node with is_parsed = false. -/
def finishNode (p : Process) (st1 : EVEState) (a t : Nat) (nm : String) :
    Except String (EVEState × PyObjectNode) :=
  match (if nm ∈ varTypes then
           match read_memory p a 24 with
           | .error e => .error e
           | .ok vb => .ok (readI64 vb 16).natAbs
         else (.ok 0 : Except String Nat)) with
  | .error e => .error e
  | .ok vsz =>
    match read_memory p a (objSize nm + vsz) with
    | .error e => .error e
    | .ok rb =>
      .ok (⟨ainsert (delOr st1 a).objects a ⟨a, t, nm, [], [], [], false⟩,
            ainsert (delOr st1 a).regions a ⟨a, objSize nm + vsz, rb⟩⟩,
           ⟨a, t, nm, [], [], [], false⟩)

/-- EVEProcess::new_node (eve_process.rs lines 116-221).  Self-typed
addresses return the cached node unchanged or create a type node with
is_parsed = true; every other address resolves its type name and runs
finishNode. -/
def new_node (p : Process) (st : EVEState) (a : Nat) :
    Except String (EVEState × PyObjectNode) :=
  if a = 0 then .error "invalid base_addr"
  else
    match read_memory p a 16 with
    | .error e => .error e
    | .ok bs =>
      if readU64 bs 8 = a then
        match alookup st.objects a with
        | some n => .ok (st, n)
        | none =>
          match read_cache p a 32 with
          | .error e => .error e
          | .ok tpBytes =>
            .ok (⟨ainsert st.objects a ⟨a, a, "type", [], [], [], true⟩,
                  ainsert st.regions a ⟨a, 32, tpBytes⟩⟩,
                 ⟨a, a, "type", [], [], [], true⟩)
      else
        match resolveTypeName p st a (readU64 bs 8) with
        | .error e => .error e
        | .ok nmSt => finishNode p nmSt.2 a (readU64 bs 8) nmSt.1

/-- The size of the region snapshotted for the node created at a, when
new_node succeeds. -/
def newNodeRegionSize (p : Process) (st : EVEState) (a : Nat) : Option Nat :=
  match new_node p st a with
  | .ok stn => (alookup stn.1.regions a).map (fun r => r.size)
  | .error _ => none

/-- Modelled from the spec (section 4.4 dispatch table): the variable tail
size the claim states - ob_size times pointer size for list and tuple,
ob_size times 4 for long, ob_size bytes for str, bytes and bytearray, 0
otherwise.  Written from the claim wording, to compare with the
implementation above. -/
def claimTailSize (s : String) (obSize : Int) : Nat :=
  if s = "list" ∨ s = "tuple" then obSize.natAbs * 8
  else if s = "long" then obSize.natAbs * 4
  else if s = "str" ∨ s = "bytes" ∨ s = "bytearray" then obSize.natAbs
  else 0

/-! ## Decoders (pyobject_parser.rs)

The parser module operates on a node together with its snapshot region
(node.region in the Rust source).  The source computes in-region field
offsets as the host pointer of the viewed field minus the remote base
address; the model uses the intended repr(C) field offsets (ob_digit at 24
inside CPyLongObject, ob_size at 16 inside the var header, ma_mask at 32 and
ma_table at 40 inside CPyDictObject), which is the reading under which the
node snapshot starts at base_addr. -/

/-- A node as the parser sees it: its resolved type name and its snapshot
region. -/
structure PNode where
  base_addr : Nat
  tp_name : String
  region : MemoryRegion
deriving DecidableEq

/-- MemoryRegion::view_bytes_as_vec_of with T = u64 (process.rs lines
133-147): bounds-check offset + size against the region size, then step
through the slice 8 bytes at a time reinterpreting each position as a u64. -/
def view_bytes_as_vec_u64 (r : MemoryRegion) (off len : Nat) :
    Except String (List Nat) :=
  if off + len > r.size then .error "Invalid offset or size"
  else .ok ((List.range ((len + 7) / 8)).map (fun k => readU64 r.data (off + 8 * k)))

/-- The sign factor applied at the end of parse_long (eve_process sign
convention: -1, 0 or 1 from ob_size). -/
def i64sign (s : Int) : Int :=
  if s < 0 then -1 else if s > 0 then 1 else 0

/-- EVEProcess::parse_long (pyobject_parser.rs lines 195-212): view the
32-byte CPyLongObject header, take s = ob_size, view the digit area as
natAbs s u64 lanes of 8 bytes each, weight lane i by 2 ^ (30 * i) in
wrapping i64 arithmetic, reduce by wrapping addition (an empty lane list is
the error case of Iterator::reduce), and multiply by the sign of s. -/
def parse_long (node : PNode) : Except String Int :=
  if node.tp_name ≠ "long" then .error "parse_long expects a long node"
  else if 32 > node.region.size then .error "Invalid offset or size"
  else
    let s := readI64 node.region.data 16
    match view_bytes_as_vec_u64 node.region 24 (s.natAbs * 8) with
    | .error e => .error e
    | .ok ds =>
      match ds.enum.map (fun q => wrapI64 (toI64 q.2 * wrapI64 (2 ^ (30 * q.1)))) with
      | [] => .error "parse_long failed"
      | x :: xs => .ok (wrapI64 ((xs.foldl (fun acc y => wrapI64 (acc + y)) x) * i64sign s))

/-- Modelled from the spec (decode_long and claim C4): read natAbs s base
2 ^ 30 digits of 4 bytes each from the digit area, reconstruct the exact sum
of digit i times 2 ^ (30 * i), and apply the sign of s (an s of 0 yields 0).
Written from the claim wording, to compare with parse_long above. -/
def decode_long_claim (node : PNode) : Int :=
  let s := readI64 node.region.data 16
  i64sign s *
    ((List.range s.natAbs).foldl
      (fun acc i => acc + (readU32 node.region.data (24 + 4 * i) : Int) * 2 ^ (30 * i)) 0)

/-- The decoding environment of parse_dict.  PyObjectNode::new_from_memory
is referenced by pyobject_parser.rs but defined nowhere in the sources;
mkNode is modelled from the spec (new_node: produce the typed node cached at
an address, none on failure).  parseStr and parseUni stand for
EVEProcess::parse_str and parse_unicode applied to the key node, whose
results only enter parse_dict as an opaque decoded string or a failure. -/
structure DictEnv where
  mkNode : Nat → Option PNode
  parseStr : PNode → Option String
  parseUni : PNode → Option String

/-- HashMap::insert for the String-keyed result map of parse_dict. -/
def sinsert (m : List (String × PNode)) (k : String) (v : PNode) :
    List (String × PNode) :=
  (k, v) :: m.filter (fun q => decide (q.1 ≠ k))

/-- One iteration of the parse_dict loop (pyobject_parser.rs lines 50-78)
at slot i: read the 24-byte CPyDictEntry at ma_table + i * 24 (me_key at 8,
me_value at 16), skip sentinel entries with a zero key or value, build the
key node; a str or unicode key is decoded (a failed decode skips the slot by
continue), any other key type leaves the key as the empty string; finally
build the value node and insert. -/
def dictStep (p : Process) (env : DictEnv) (table : Nat)
    (m : List (String × PNode)) (i : Nat) : List (String × PNode) :=
  match read_memory p (table + i * 24) 24 with
  | .error _ => m
  | .ok eb =>
    let k := readU64 eb 8
    let v := readU64 eb 16
    if k = 0 ∨ v = 0 then m
    else
      match env.mkNode k with
      | none => m
      | some ko =>
        if ko.tp_name = "str" then
          match env.parseStr ko with
          | none => m
          | some key =>
            match env.mkNode v with
            | none => m
            | some vo => sinsert m key vo
        else if ko.tp_name = "unicode" then
          match env.parseUni ko with
          | none => m
          | some key =>
            match env.mkNode v with
            | none => m
            | some vo => sinsert m key vo
        else
          match env.mkNode v with
          | none => m
          | some vo => sinsert m "" vo

/-- EVEProcess::parse_dict (pyobject_parser.rs lines 37-80): demand a dict
node, view the 248-byte CPyDictObject header for ma_mask and ma_table, and
fold the per-slot step over the slots 0 to ma_mask. -/
def parse_dict (p : Process) (env : DictEnv) (node : PNode) :
    Except String (List (String × PNode)) :=
  if node.tp_name ≠ "dict" then .error "parse_dict expects a dict node"
  else if 248 > node.region.size then .error "Invalid offset or size"
  else
    let mask := readI64 node.region.data 32
    let table := readU64 node.region.data 40
    .ok ((List.range (mask + 1).toNat).foldl (dictStep p env table) [])

/-- The contribution of a single slot, written in the one-slot style of the
claim: a slot contributes exactly when its entry is readable, me_key and
me_value are both nonzero, the key node resolves, the key decodes (to its
string for a str or unicode key, to the empty string for any other key
type), and the value node resolves. -/
def slotContribution (p : Process) (env : DictEnv) (table i : Nat) :
    Option (String × PNode) :=
  match read_memory p (table + i * 24) 24 with
  | .error _ => none
  | .ok eb =>
    let k := readU64 eb 8
    let v := readU64 eb 16
    if k = 0 ∨ v = 0 then none
    else
      match env.mkNode k with
      | none => none
      | some ko =>
        match (if ko.tp_name = "str" then env.parseStr ko
               else if ko.tp_name = "unicode" then env.parseUni ko
               else some "") with
        | none => none
        | some key => (env.mkNode v).map (fun vo => (key, vo))

/-! ## Concrete scenarios used by the claim theorems and witnesses -/

/-- Two sorted, non-overlapping regions: bytes 0-15 and 100-115. -/
def regionsC1 : List MemoryRegion :=
  [⟨0, 16, zeros 16⟩, ⟨100, 16, zeros 16⟩]

/-- A process with a single region of 12 bytes (a length that is not a
multiple of 8). -/
def pC2 : Process :=
  ⟨[⟨0, 12, zeros 12⟩]⟩

/-- A process whose single region holds one dict entry at address 100:
me_hash 0, me_key 55, me_value 66. -/
def pC3 : Process :=
  ⟨[⟨100, 24, zeros 8 ++ le8 55 ++ le8 66⟩]⟩

/-- The key object at address 55: an int, neither str nor unicode. -/
def nodeKeyC3 : PNode :=
  ⟨55, "int", ⟨0, 0, []⟩⟩

/-- The value object at address 66. -/
def nodeValC3 : PNode :=
  ⟨66, "custom", ⟨0, 0, []⟩⟩

/-- Node environment resolving exactly the two objects of the scenario. -/
def envC3 : DictEnv :=
  ⟨fun a => if a = 55 then some nodeKeyC3 else if a = 66 then some nodeValC3 else none,
   fun _ => none, fun _ => none⟩

/-- A dict node whose header has ma_mask 0 and ma_table 100. -/
def nodeDictC3 : PNode :=
  ⟨500, "dict", ⟨500, 248, zeros 32 ++ le8 0 ++ le8 100 ++ zeros 200⟩⟩

/-- A long node with ob_size 1 whose digit area bytes are 0 0 0 0 1 0 0 0:
the single u32 digit is 0, while the bytes 4 to 7 after it are nonzero. -/
def nodeLongC4 : PNode :=
  ⟨4096, "long", ⟨4096, 40, zeros 16 ++ le8 1 ++ le8 (2 ^ 32) ++ le8 0⟩⟩

/-- A long node with ob_size 0. -/
def nodeLongC4z : PNode :=
  ⟨4096, "long", ⟨4096, 40, zeros 40⟩⟩

/-- Memory for the C5 scenario: at address 16 lies an object with ob_type
777 and ob_size 2. -/
def pC5 : Process :=
  ⟨[⟨0, 64, zeros 24 ++ le8 777 ++ le8 2 ++ zeros 24⟩]⟩

/-- Engine state with the type object at 777 already cached as a long. -/
def stC5 : EVEState :=
  ⟨[(777, ⟨777, 777, "long", [], [], [], true⟩)], []⟩

/-- C6 scenario: at 4096 lies a type object with ob_type 153 whose tp_name
pointer 4136 leads to the zero-terminated string UIRootExtra; a second
region keeps the first one away from the last-region edge case of the
lookup. -/
def pC6 : Process :=
  ⟨[⟨4096, 64, zeros 8 ++ le8 153 ++ zeros 8 ++ le8 4136 ++ zeros 8 ++
      strBytes "UIRootExtra" ++ [0] ++ zeros 12⟩,
    ⟨999999, 8, zeros 8⟩]⟩

/-- A node at address 5 with no extras. -/
def objC7 : PyObjectNode :=
  ⟨5, 7, "int", [], [], [], true⟩

/-- A region snapshot keyed by address 5. -/
def regC7 : MemoryRegion :=
  ⟨5, 4, zeros 4⟩

/-- State holding the node at 5 and the region keyed by 5. -/
def stC7 : EVEState :=
  ⟨[(5, objC7)], [(5, regC7)]⟩

/-- A node at address 5 whose extras list the region key 9. -/
def objC7w : PyObjectNode :=
  ⟨5, 7, "int", [], [], [9], true⟩

/-- Region snapshots for the C7 witness state. -/
def regC7w : MemoryRegion :=
  ⟨5, 4, zeros 4⟩

/-- The extra region keyed by 9. -/
def regC7x : MemoryRegion :=
  ⟨9, 8, zeros 8⟩

/-- Witness state: node at 5 with extras [9], regions keyed by 5 and 9. -/
def stC7w : EVEState :=
  ⟨[(5, objC7w)], [(5, regC7w), (9, regC7x)]⟩

/-- Memory for the C8 scenario: at address 16 lies an object with ob_type
777 (an int object). -/
def pC8 : Process :=
  ⟨[⟨0, 64, zeros 24 ++ le8 777 ++ zeros 32⟩]⟩

/-- The cached type object at 777 named int. -/
def typeNodeC8 : PyObjectNode :=
  ⟨777, 777, "int", [], [], [], true⟩

/-- A node previously created at 16 and since marked parsed. -/
def parsedNodeC8 : PyObjectNode :=
  ⟨16, 777, "int", [], [], [], true⟩

/-- State in which the parsed node at 16 is cached. -/
def stC8 : EVEState :=
  ⟨[(777, typeNodeC8), (16, parsedNodeC8)], []⟩

/-- The 16 bytes read at address 16 in the C8 scenario. -/
def bsC8 : List Nat :=
  zeros 8 ++ le8 777

/-- The fresh node new_node produces at 16 in the C8 scenario. -/
def nC8x : PyObjectNode :=
  ⟨16, 777, "int", [], [], [], false⟩

/-- The state after new_node in the C8 scenario. -/
def stC8x : EVEState :=
  ⟨[(16, nC8x), (777, typeNodeC8)], [(16, ⟨16, 24, zeros 8 ++ le8 777 ++ zeros 8⟩)]⟩

/-- Region list of process A for the C9 scenario. -/
def regionsC9A : List MemoryRegion :=
  [⟨0, 16, zeros 16⟩, ⟨1000, 8, zeros 8⟩]

/-- Region list of process B for the C9 scenario: same address 8 is mapped,
but at offset 4 of a region starting at 4. -/
def regionsC9B : List MemoryRegion :=
  [⟨4, 16, zeros 16⟩, ⟨1000, 8, zeros 8⟩]

/-! ## Supporting lemmas -/

theorem alookup_aremove {α : Type} (l : List (Nat × α)) (k k' : Nat) :
    alookup (aremove l k) k' = if k' = k then none else alookup l k' := by
  induction l with
  | nil => simp [aremove, alookup]
  | cons q ps ih =>
    by_cases h2 : k' = k
    · subst h2
      by_cases h1 : q.1 = k'
      · simp [aremove, h1, ih]
      · simp [aremove, alookup, h1, ih]
    · by_cases h1 : q.1 = k
      · have h5 : ¬ q.1 = k' := by
          rw [h1]
          exact fun hh => h2 hh.symm
        have h6 : ¬ k = k' := fun hh => h2 hh.symm
        simp [aremove, alookup, h1, h5, ih, h2, h6]
      · by_cases h5 : q.1 = k'
        · simp [aremove, alookup, h1, h5, ih, h2]
        · simp [aremove, alookup, h1, h5, ih, h2]

theorem alookup_ainsert {α : Type} (l : List (Nat × α)) (k : Nat) (v : α)
    (k' : Nat) :
    alookup (ainsert l k v) k' = if k' = k then some v else alookup l k' := by
  by_cases h : k = k'
  · simp [ainsert, alookup, h]
  · have h2 : ¬ k' = k := fun hh => h hh.symm
    simp [ainsert, alookup, h, alookup_aremove, h2]

theorem alookup_foldl_aremove {α : Type} (ks : List Nat)
    (l : List (Nat × α)) (k : Nat) :
    alookup (ks.foldl (fun rs e => aremove rs e) l) k =
      if k ∈ ks then none else alookup l k := by
  induction ks generalizing l with
  | nil => simp
  | cons e es ih =>
    rw [List.foldl_cons, ih]
    by_cases h1 : k ∈ es
    · simp [h1]
    · by_cases h2 : k = e
      · simp [h1, h2, alookup_aremove]
      · simp [h1, h2, alookup_aremove]

theorem mem_scanOffs (size o : Nat) :
    o ∈ scanOffs size ↔ o < size ∧ o % 8 = 0 := by
  simp [scanOffs, List.mem_filter, List.mem_range]

theorem scanList_all_ok (size : Nat) (f : Nat → Option Nat) (os : List Nat)
    (h : ∀ o ∈ os, o + 8 ≤ size) :
    scanList size f os = some (os.filterMap f) := by
  induction os with
  | nil => rfl
  | cons o os ih =>
    have h1 : o + 8 ≤ size := h o (List.mem_cons_self o os)
    have h2 := ih (fun x hx => h x (List.mem_cons_of_mem o hx))
    cases hf : f o <;> simp [scanList, h1, h2, hf, List.filterMap_cons]

theorem scanRegion_char (r : MemoryRegion) (f : Nat → Option Nat)
    (hsz : r.size % 8 = 0) :
    scanRegion r f = some ((scanOffs r.size).filterMap f) := by
  refine scanList_all_ok r.size f (scanOffs r.size) (fun o ho => ?_)
  rw [mem_scanOffs] at ho
  omega

theorem scanAll_char (f : MemoryRegion → Nat → Option Nat)
    (rs : List MemoryRegion) (h : ∀ r ∈ rs, r.size % 8 = 0) :
    ∃ L, scanAll f rs = some L ∧
      ∀ x, (x ∈ L ↔ ∃ r ∈ rs, ∃ o, o < r.size ∧ o % 8 = 0 ∧ f r o = some x) := by
  induction rs with
  | nil => exact ⟨[], rfl, by simp⟩
  | cons r rs ih =>
    obtain ⟨L, hL, hmem⟩ := ih (fun x hx => h x (List.mem_cons_of_mem r hx))
    have hr : scanRegion r (f r) = some ((scanOffs r.size).filterMap (f r)) :=
      scanRegion_char r (f r) (h r (List.mem_cons_self r rs))
    refine ⟨(scanOffs r.size).filterMap (f r) ++ L, ?_, fun x => ?_⟩
    · simp [scanAll, hr, hL]
    · simp only [List.mem_append, List.mem_filterMap, mem_scanOffs, hmem,
        List.mem_cons]
      constructor
      · rintro (⟨o, ⟨ho1, ho2⟩, hf⟩ | ⟨r', hr', o, ho1, ho2, hf⟩)
        · exact ⟨r, Or.inl rfl, o, ho1, ho2, hf⟩
        · exact ⟨r', Or.inr hr', o, ho1, ho2, hf⟩
      · rintro ⟨r', hr' | hr', o, ho1, ho2, hf⟩
        · exact Or.inl ⟨o, ⟨hr' ▸ ho1, ho2⟩, hr' ▸ hf⟩
        · exact Or.inr ⟨r', hr', o, ho1, ho2, hf⟩

theorem typeFilter_eq_some (p : Process) (tpc : Nat) (nb : List Nat)
    (r : MemoryRegion) (o a : Nat) :
    typeFilter p tpc nb r o = some a ↔
      readU64 r.data (o + 8) = tpc ∧
      read_cache p (readU64 r.data (o + 24)) nb.length = .ok nb ∧
      a = r.start + o := by
  unfold typeFilter
  by_cases h1 : readU64 r.data (o + 8) = tpc
  · cases h2 : read_cache p (readU64 r.data (o + 24)) nb.length with
    | error e => simp [h1, h2]
    | ok bs =>
      by_cases h3 : nb = bs
      · subst h3
        simp [h1, h2, eq_comm]
      · have h4 : ¬ (Except.ok bs = (.ok nb : Except String (List Nat))) := by
          simp [h3]
          exact fun hh => h3 hh.symm
        simp [h1, h2, h3, h4]
  · simp [h1]

theorem dictStep_char (p : Process) (env : DictEnv) (table : Nat)
    (m : List (String × PNode)) (i : Nat) :
    dictStep p env table m i =
      match slotContribution p env table i with
      | none => m
      | some kv => sinsert m kv.1 kv.2 := by
  unfold dictStep slotContribution
  cases hr : read_memory p (table + i * 24) 24 with
  | error e => rfl
  | ok eb =>
    by_cases h0 : readU64 eb 8 = 0 ∨ readU64 eb 16 = 0
    · simp [h0]
    · simp only [h0, if_false]
      cases hk : env.mkNode (readU64 eb 8) with
      | none => rfl
      | some ko =>
        by_cases hs : ko.tp_name = "str"
        · cases hps : env.parseStr ko <;>
            cases hv : env.mkNode (readU64 eb 16) <;> simp [hs, hps, hv]
        · by_cases hu : ko.tp_name = "unicode"
          · cases hps : env.parseUni ko <;>
              cases hv : env.mkNode (readU64 eb 16) <;> simp [hs, hu, hps, hv]
          · cases hv : env.mkNode (readU64 eb 16) <;> simp [hs, hu, hv]

theorem foldl_dictStep (p : Process) (env : DictEnv) (table : Nat)
    (l : List Nat) (m : List (String × PNode)) :
    l.foldl (dictStep p env table) m =
      (l.filterMap (slotContribution p env table)).foldl
        (fun m kv => sinsert m kv.1 kv.2) m := by
  induction l generalizing m with
  | nil => rfl
  | cons i l ih =>
    rw [List.foldl_cons, dictStep_char, List.filterMap_cons]
    cases slotContribution p env table i with
    | none => exact ih m
    | some kv => simp [ih]

/-! ## Claim theorems -/

/-- Claim C1: the claim states that the region lookup succeeds exactly when
regions[i].start ≤ addr < regions[i].start + regions[i].length, with an
address one past the end of a region NotMapped.  On the sorted,
non-overlapping list regionsC1 the code instead accepts address 16, which is
one past the end of region 0 (its bounds check uses strictly-greater), and
rejects address 108 even though it lies strictly inside the last region
(the binary-search insertion index equal to the list length is treated as
not mapped). -/
theorem claim_C1_locate_off_by_one :
    get_region_from_address regionsC1 16 = .ok (0, 16) ∧
    get_region_from_address regionsC1 108 =
      .error "Address not found in any memory region" ∧
    ¬ (16 < 0 + 16) ∧ (100 ≤ 108 ∧ 108 < 100 + 16) := by
  decide

/-- Claim C2: the claim states the scan predicate runs exactly at the
8-aligned offsets in the interval up to length - sizeof T, on fully
in-bounds views, and never panics.  The embedded loop instead panics on a
region of length 12 (offset 8 fails the fixed 8-byte check of
view_bytes_as and is unwrapped), and on a region of length 40 it invokes
the predicate at offsets 16, 24 and 32 although a 32-byte CPyTypeObject
view at 32 extends past the region; search_type over the 12-byte region
aborts in the same way (the inner none). -/
theorem claim_C2_scan_bounds :
    regionInvokedOffsets 12 = none ∧
    regionInvokedOffsets 40 = some [0, 8, 16, 24, 32] ∧
    claimScanOffsets 40 32 = [0, 8] ∧
    ¬ (32 + 32 ≤ 40) ∧
    search_type pC2 0 "x" (some 5) = .ok none := by
  decide

/-- Claim C3, counterexample: in a dict with one occupied slot whose key
object is an int (neither str nor unicode), the claim says the entry is
skipped entirely; parse_dict instead inserts its value under the empty
string key. -/
theorem claim_C3_counterexample :
    parse_dict pC3 envC3 nodeDictC3 = .ok [("", nodeValC3)] ∧
    (envC3.mkNode 55).map (fun n => n.tp_name) = some "int" ∧
    "int" ≠ "str" ∧ "int" ≠ "unicode" ∧
    ([("", nodeValC3)] : List (String × PNode)) ≠ [] := by
  decide

/-- Claim C3, amended: parse_dict examines every slot 0 to ma_mask; a slot
contributes exactly when its entry is readable and me_key and me_value are
both nonzero and both nodes resolve and the key decodes; a str or unicode
key maps its decoded string, while an entry whose key is of any other type
is inserted under the empty string key instead of being skipped. -/
theorem claim_C3_amended (p : Process) (env : DictEnv) (node : PNode)
    (h1 : node.tp_name = "dict") (h2 : 248 ≤ node.region.size) :
    parse_dict p env node = .ok
      (((List.range ((readI64 node.region.data 32) + 1).toNat).filterMap
        (slotContribution p env (readU64 node.region.data 40))).foldl
        (fun m kv => sinsert m kv.1 kv.2) []) := by
  unfold parse_dict
  rw [if_neg (by simp [h1]), if_neg (by omega)]
  exact congrArg Except.ok (foldl_dictStep p env (readU64 node.region.data 40)
    (List.range ((readI64 node.region.data 32) + 1).toNat) [])

/-- Witness for the amended C3 theorem at the concrete scenario. -/
theorem claim_C3_amended_witness :
    parse_dict pC3 envC3 nodeDictC3 = .ok
      (((List.range ((readI64 nodeDictC3.region.data 32) + 1).toNat).filterMap
        (slotContribution pC3 envC3 (readU64 nodeDictC3.region.data 40))).foldl
        (fun m kv => sinsert m kv.1 kv.2) []) :=
  claim_C3_amended pC3 envC3 nodeDictC3 rfl (by decide)

/-- Claim C4: the claim states that parse_long reads natAbs s digits of 4
bytes each (u32 lanes, as CPyLongObject declares) and yields the signed
base 2 ^ 30 value, with 0 for s = 0.  On a one-digit node whose digit u32
is 0 but whose following 4 bytes are nonzero, the code returns 2 ^ 32 (it
reads 8-byte u64 lanes), while the claimed decoding yields 0; and on an
s = 0 node the code returns the error of the empty Iterator::reduce instead
of 0. -/
theorem claim_C4_long_lanes :
    parse_long nodeLongC4 = .ok 4294967296 ∧
    decode_long_claim nodeLongC4 = 0 ∧
    parse_long nodeLongC4z = .error "parse_long failed" ∧
    decode_long_claim nodeLongC4z = 0 ∧
    (4294967296 : Int) ≠ 0 := by
  decide

/-- Claim C5: the claim states the snapshot for a node is header plus a
tail of natAbs ob_size * 8 bytes for list and tuple and natAbs ob_size * 4
bytes for long.  Running new_node on a long object with ob_size 2 snapshots
32 + 2 = 34 bytes (the code uses natAbs ob_size bytes for every
variable-sized shape), not the 32 + 8 = 40 bytes of the claimed dispatch
table. -/
theorem claim_C5_tail_size :
    newNodeRegionSize pC5 stC5 16 = some 34 ∧
    objSize "long" + claimTailSize "long" 2 = 40 ∧
    (34 : Nat) ≠ 40 := by
  decide

/-- Claim C6, counterexample: the claim says an address whose tp_name
merely has the searched name as a proper prefix is not returned.  In pC6
the descriptor at 4096 has the zero-terminated tp_name UIRootExtra (its
tp_name pointer is 4136, offset 40 of the region), yet search_type for
UIRoot with context 153 returns exactly [4096]. -/
theorem claim_C6_counterexample :
    search_type pC6 0 "UIRoot" (some 153) = .ok (some [4096]) ∧
    readU64 (pC6.regions.getD 0 default).data 24 = 4136 ∧
    readCStr (pC6.regions.getD 0 default).data 40 = strBytes "UIRootExtra" ∧
    strBytes "UIRootExtra" ≠ strBytes "UIRoot" := by
  decide

/-- Claim C6, amended: for a nonzero type context and region sizes that are
multiples of 8, search_type returns exactly the base addresses of
8-aligned candidates whose ob_type equals the context and whose tp_name
pointer leads to bytes whose first name-length prefix equals the searched
name - the zero terminator is never checked, so names extending the
searched name also match. -/
theorem claim_C6_amended (p : Process) (pt : Nat) (name : String)
    (ctx : Nat) (L : List Nat) (hc : ctx ≠ 0)
    (hs : ∀ r ∈ p.regions, r.size % 8 = 0)
    (hrun : search_type p pt name (some ctx) = .ok (some L)) (a : Nat) :
    a ∈ L ↔ ∃ r ∈ p.regions, ∃ o, o < r.size ∧ o % 8 = 0 ∧
      readU64 r.data (o + 8) = ctx ∧
      read_cache p (readU64 r.data (o + 24)) (strBytes name).length =
        .ok (strBytes name) ∧
      a = r.start + o := by
  unfold search_type at hrun
  simp only [Option.getD] at hrun
  rw [if_neg hc] at hrun
  obtain ⟨L', hL', hmem⟩ :=
    scanAll_char (typeFilter p ctx (strBytes name)) p.regions hs
  rw [hL'] at hrun
  have hLL : L' = L := by
    injection hrun with h
    injection h
  subst hLL
  rw [hmem a]
  simp only [typeFilter_eq_some]

/-- Witness for the amended C6 theorem at the concrete scenario. -/
theorem claim_C6_amended_witness :
    4096 ∈ ([4096] : List Nat) ↔ ∃ r ∈ pC6.regions, ∃ o, o < r.size ∧
      o % 8 = 0 ∧ readU64 r.data (o + 8) = 153 ∧
      read_cache pC6 (readU64 r.data (o + 24)) (strBytes "UIRoot").length =
        .ok (strBytes "UIRoot") ∧
      4096 = r.start + o :=
  claim_C6_amended pC6 0 "UIRoot" 153 [4096] (by decide) (by decide)
    (by decide) 4096

/-- Claim C7, counterexample: the claim says del_node also removes the
region keyed by the address itself.  In stC7 the node at 5 has empty
extras and a region is cached under key 5; del_node succeeds but the
region keyed by 5 survives. -/
theorem claim_C7_counterexample :
    (match del_node stC7 5 with
     | .ok st => alookup st.regions 5
     | .error _ => none) = some regC7 ∧
    (alookup stC7.objects 5).isSome = true := by
  decide

/-- Claim C7, amended: del_node removes the node at the address and
exactly the regions keyed by elements of its extras, leaving every other
node and region unchanged; the region keyed by the address itself is
removed only if the address appears in extras; on an absent address
del_node fails with an error. -/
theorem claim_C7_amended (st : EVEState) (a : Nat) :
    (∀ obj st', alookup st.objects a = some obj → del_node st a = .ok st' →
      (∀ k, alookup st'.objects k =
        if k = a then none else alookup st.objects k) ∧
      (∀ k, alookup st'.regions k =
        if k ∈ obj.extras then none else alookup st.regions k)) ∧
    (alookup st.objects a = none →
      del_node st a = .error "invalid base_addr") := by
  constructor
  · intro obj st' hobj hdel
    unfold del_node at hdel
    rw [hobj] at hdel
    injection hdel with hdel
    subst hdel
    refine ⟨fun k => ?_, fun k => ?_⟩
    · exact alookup_aremove st.objects a k
    · exact alookup_foldl_aremove obj.extras st.regions k
  · intro h
    unfold del_node
    rw [h]

/-- Witness for the amended C7 theorem: deleting the node at 5 with extras
[9] removes the region keyed by 9, keeps the region keyed by 5, removes
the node, and del_node on an empty state errors. -/
theorem claim_C7_amended_witness :
    alookup (⟨[], [(5, regC7w)]⟩ : EVEState).regions 9 = none ∧
    alookup (⟨[], [(5, regC7w)]⟩ : EVEState).regions 5 = some regC7w ∧
    alookup (⟨[], [(5, regC7w)]⟩ : EVEState).objects 5 = none ∧
    del_node (⟨[], []⟩ : EVEState) 3 = .error "invalid base_addr" := by
  have h := (claim_C7_amended stC7w 5).1 objC7w ⟨[], [(5, regC7w)]⟩
    (by decide) (by decide)
  refine ⟨?_, ?_, ?_, (claim_C7_amended ⟨[], []⟩ 3).2 (by decide)⟩
  · have h9 := h.2 9
    rw [if_pos (by decide)] at h9
    exact h9
  · have h5 := h.2 5
    rw [if_neg (by decide)] at h5
    rw [h5]
    decide
  · have ho := h.1 5
    simpa [stC7w] using ho

theorem finishNode_ok (p : Process) (st1 : EVEState) (a t : Nat)
    (nm : String) (st' : EVEState) (n : PyObjectNode)
    (h : finishNode p st1 a t nm = .ok (st', n)) :
    n.is_parsed = false ∧ alookup st'.objects a = some n := by
  unfold finishNode at h
  split at h
  · exact absurd h (by simp)
  · split at h
    · exact absurd h (by simp)
    · injection h with h
      injection h with h1 h2
      subst h1
      subst h2
      refine ⟨rfl, ?_⟩
      rw [alookup_ainsert]
      simp

/-- Claim C8, counterexample: the claim says a second new_node call returns
a handle to the same underlying cached node.  In stC8 the node cached at 16
has been parsed (is_parsed = true); running new_node at 16 again over the
same target bytes evicts it and returns a fresh node with is_parsed =
false, not the cached node. -/
theorem claim_C8_counterexample :
    (alookup stC8.objects 16).map (fun n => n.is_parsed) = some true ∧
    new_node pC8 stC8 16 = .ok (stC8x, nC8x) ∧
    nC8x.is_parsed = false ∧
    some nC8x ≠ alookup stC8.objects 16 := by
  decide

/-- Claim C8, amended: new_node is idempotent only for self-typed type
descriptors - there a second call returns the cached node and the
unchanged state; for every non-self-typed address a successful new_node
always produces a node with is_parsed = false and caches it at the
address, evicting whatever node was cached before (so del_node followed by
new_node, or any repeated new_node, yields a fresh unparsed node). -/
theorem claim_C8_amended (p : Process) (st : EVEState) (a : Nat)
    (bs : List Nat) (ha : a ≠ 0) (h1 : read_memory p a 16 = .ok bs) :
    (readU64 bs 8 = a → ∀ n, alookup st.objects a = some n →
      new_node p st a = .ok (st, n)) ∧
    (readU64 bs 8 ≠ a → ∀ st' n, new_node p st a = .ok (st', n) →
      n.is_parsed = false ∧ alookup st'.objects a = some n) := by
  constructor
  · intro hsame n hn
    unfold new_node
    rw [if_neg ha, h1]
    simp only [hsame, if_pos, hn]
  · intro hdiff st' n hok
    unfold new_node at hok
    rw [if_neg ha, h1] at hok
    simp only [if_neg hdiff] at hok
    split at hok
    · exact absurd hok (by simp)
    · exact finishNode_ok p _ a (readU64 bs 8) _ st' n hok

/-- Witness for the amended C8 theorem at the concrete scenario: the fresh
node produced at 16 is unparsed and is the one cached at 16. -/
theorem claim_C8_amended_witness :
    nC8x.is_parsed = false ∧ alookup stC8x.objects 16 = some nC8x :=
  (claim_C8_amended pC8 stC8 16 bsC8 (by decide) (by decide)).2
    (by decide) stC8x nC8x (by decide)

/-- Claim C9: the claim says the LRU never changes observable behavior,
including across different Process values.  The LRU is a single global
keyed only by the address: after process A (regions starting at 0 and
1000) looks up address 8 and caches (0, 8), the same lookup on process B
(regions starting at 4 and 1000) returns the stale (0, 8) from the cache,
while a cache-free search over B returns (0, 4). -/
theorem claim_C9_cache_cross_process :
    (get_region_from_address_cached [] regionsC9A 8).1 = .ok (0, 8) ∧
    (get_region_from_address_cached [] regionsC9A 8).2 = [(8, 0, 8)] ∧
    (get_region_from_address_cached [(8, 0, 8)] regionsC9B 8).1 = .ok (0, 8) ∧
    get_region_from_address regionsC9B 8 = .ok (0, 4) ∧
    ((0, 8) : Nat × Nat) ≠ (0, 4) := by
  decide

/-- Claim C10: before a successful init the resolved type context is 0, and
both search_type and search_ui_root return an error (the guard before the
scan), never an empty result list. -/
theorem claim_C10_error_before_init (p : Process) (name : String) :
    search_type p 0 name none = .error "No invalid tp_addr provided." ∧
    search_ui_root p 0 none = .error "No invalid tp_addr provided." :=
  ⟨rfl, rfl⟩

end PyEve
